import Mathlib

/-
Verification of the polymarket-apis core: orderbook integrity utilities
(`utilities/order_builder/helpers.py`) and the websocket event decoder /
connection supervisor (`clients/websockets_client.py`).

Python `Decimal` values are modelled as exact rationals (ℚ); the spec requires
exact decimal arithmetic, never binary floating point, so ℚ is a faithful
carrier for every finite decimal value.
-/

namespace Polymarket

/-! Orderbook integrity utilities (helpers.py). -/

/-- helpers.py `round_down(x, sig_digits)`: quantize `x` to `sig_digits`
fractional digits with `ROUND_FLOOR` (round toward −∞). `Decimal.quantize`
with exponent `10^(-d)` and floor rounding yields `⌊x·10^d⌋ / 10^d`. -/
def round_down (x : ℚ) (sig_digits : ℕ) : ℚ :=
  (⌊x * 10 ^ sig_digits⌋ : ℚ) / 10 ^ sig_digits

/-- helpers.py `round_normal(x, sig_digits)`: quantize with `ROUND_HALF_UP`
(round to nearest, ties away from zero): `sign(x)·⌊|x|·10^d + 1/2⌋ / 10^d`. -/
def round_normal (x : ℚ) (sig_digits : ℕ) : ℚ :=
  (if 0 ≤ x then (⌊x * 10 ^ sig_digits + 1/2⌋ : ℚ)
   else (⌈x * 10 ^ sig_digits - 1/2⌉ : ℚ)) / 10 ^ sig_digits

/-- helpers.py `round_up(x, sig_digits)`: quantize with `ROUND_CEILING`
(round toward +∞): `⌈x·10^d⌉ / 10^d`. -/
def round_up (x : ℚ) (sig_digits : ℕ) : ℚ :=
  (⌈x * 10 ^ sig_digits⌉ : ℚ) / 10 ^ sig_digits

/-- Modelled from the spec: `TickSize` (defined in `types/clob_types.py`, a
module not present under src/) is one of the fixed decimal granularities
{0.1, 0.01, 0.001, 0.0001}. -/
inductive TickSize where
  | tenth
  | hundredth
  | thousandth
  | tenThousandth
deriving DecidableEq

/-- Numeric value of a tick size (Python `Decimal(tick_size)` on the
string literal). -/
def TickSize.toRat : TickSize → ℚ
  | .tenth => 1/10
  | .hundredth => 1/100
  | .thousandth => 1/1000
  | .tenThousandth => 1/10000

/-- helpers.py `price_valid(price, tick_size)`:
`Decimal(tick_size) <= price <= 1 - Decimal(tick_size)`. -/
def price_valid (price : ℚ) (tick_size : TickSize) : Bool :=
  decide (tick_size.toRat ≤ price ∧ price ≤ 1 - tick_size.toRat)

/-- Modelled from the spec: one entry of a bid or ask list (price and size,
exact decimals). The pydantic model lives in the missing `clob_types.py`. -/
structure OrderSummary where
  price : ℚ
  size : ℚ
deriving DecidableEq

/-- Modelled from the spec: `OrderBookSummary` (from the missing
`clob_types.py`) — ordered bid and ask lists, a market/token identifier and a
server-supplied integrity hash string. -/
structure OrderBookSummary where
  market : String
  asset_id : String
  bids : List OrderSummary
  asks : List OrderSummary
  hash : String
deriving DecidableEq

/-- helpers.py `generate_orderbook_summary_hash(orderbook)`. The Python
function mutates `orderbook.hash` in place and restores it before returning;
the mutation is modelled by state passing: the result pairs the returned
digest with the snapshot as it stands after the call. The library calls
`model_dump_json(by_alias=True)` and `hashlib.sha1(...).hexdigest()` are
parameters (`model_dump_json`, `sha1_hexdigest`). -/
def generate_orderbook_summary_hash (sha1_hexdigest : String → String)
    (model_dump_json : OrderBookSummary → String)
    (orderbook : OrderBookSummary) : String × OrderBookSummary :=
  let server_hash := orderbook.hash
  let cleared := { orderbook with hash := "" }
  let computed_hash := sha1_hexdigest (model_dump_json cleared)
  (computed_hash, { cleared with hash := server_hash })

/-! Websockets client (websockets_client.py).

Parsed JSON values, Python exceptions that can arise in the decoder paths, and
the `print` side effects as an output trace. -/

/-- A parsed JSON value (result of `json.loads` / the `event.json` field). -/
inductive Jv where
  | null
  | bool (b : Bool)
  | num (q : ℚ)
  | str (s : String)
  | arr (elems : List Jv)
  | obj (fields : List (String × Jv))

/-- Detail payload of a pydantic `ValidationError` (the data `e.errors()`
renders); its structure is irrelevant to the control flow, so it is kept
as an opaque string. -/
abbrev VErr := String

/-- Python exceptions (subclasses of `Exception`) that the decoder and
listen-loop paths can raise. `BaseException`-only signals such as
`asyncio.CancelledError` (external cancellation) are outside this type. -/
inductive PyExc where
  | jsonDecodeError
  | validationError (e : VErr)
  | attributeError (attr : String)
  | keyError (k : String)
  | typeError
deriving DecidableEq

/-- One `print(...)` emitted by a decoder or by the listen loop. -/
inductive POut where
  | printedEvent (kind : String) (payload : Jv)
  | printedRaw (payload : Jv)
  | printedText (s : String)
  | printedErrors (e : VErr)
  | printedDecodeFail (message : String)
  | printedProcessError (e : PyExc)

/-- `EventWrapper`: pairs the parsed JSON with its `json.dumps` rendering. -/
structure EventWrapper where
  json : Jv
  text : String

/-- Python `fields.get(k)` on a dict rendered as an association list
(first match; Python dict keys are unique). -/
def dictGet (fields : List (String × Jv)) (k : String) : Option Jv :=
  (fields.find? (fun p => p.1 == k)).map (fun p => p.2)

/-- Python subscripting `message[k]` with a string key: `KeyError` when the
key is absent from a dict, `TypeError` when the value is not a dict. -/
def subscript (v : Jv) (k : String) : Except PyExc Jv :=
  match v with
  | .obj fields =>
      match dictGet fields k with
      | some x => .ok x
      | none => .error (.keyError k)
  | _ => .error .typeError

/-- Python attribute access `v.text` on a parsed JSON value: the objects
`json.loads` produces (dict, list, str, int, float, bool, None) have no
`text` attribute, so the access raises `AttributeError` unconditionally. -/
def jvText (_ : Jv) : Except PyExc String :=
  .error (.attributeError "text")

/-! Note: a pydantic model constructor `Model(**payload)` is abstracted as a
validator `Jv → Option VErr`: `none` means the payload validates (the model
is built and printed), `some e` means construction raised
`ValidationError(e)`. -/

/-- The `for item in message` loop of `_process_market_event` (lines 49–54):
each element is validated as an `OrderBookSummaryEvent`; on
`ValidationError` the handler executes `print(item.text)`, which raises
`AttributeError` (see `jvText`) and is not caught by any enclosing clause of
the function. Returns the prints emitted so far and the escaping exception,
if any. -/
def market_list_loop (bookV : Jv → Option VErr) : List Jv → List POut × Option PyExc
  | [] => ([], none)
  | item :: rest =>
      match bookV item with
      | none =>
          let (outs, exc) := market_list_loop bookV rest
          (.printedEvent "book" item :: outs, exc)
      | some e =>
          match jvText item with
          | .ok t =>
              let (outs, exc) := market_list_loop bookV rest
              (.printedText t :: .printedErrors e :: outs, exc)
          | .error exc => ([], some exc)

/-- Dispatch of `_process_market_event` on `message["event_type"]`
(lines 56–66): four recognized discriminants and a `case _` that prints the
raw message. A `ValidationError` raised by a constructor here propagates to
the function's outer `except ValidationError` clause. -/
def market_object_dispatch (bookV pcV tscV ltpV : Jv → Option VErr)
    (msg : Jv) (et : Jv) : List POut × Option PyExc :=
  match et with
  | .str "book" =>
      match bookV msg with
      | none => ([.printedEvent "book" msg], none)
      | some e => ([], some (.validationError e))
  | .str "price_change" =>
      match pcV msg with
      | none => ([.printedEvent "price_change" msg], none)
      | some e => ([], some (.validationError e))
  | .str "tick_size_change" =>
      match tscV msg with
      | none => ([.printedEvent "tick_size_change" msg], none)
      | some e => ([], some (.validationError e))
  | .str "last_trade_price" =>
      match ltpV msg with
      | none => ([.printedEvent "last_trade_price" msg], none)
      | some e => ([], some (.validationError e))
  | _ => ([.printedRaw msg], none)

/-- `_process_market_event` (lines 45–71): array messages go through the
element loop, object messages through the `event_type` dispatch; the outer
`except JSONDecodeError` and `except ValidationError` clauses are applied to
the body's outcome. Any other exception (notably the `AttributeError` from
the element loop, or a `KeyError` from `message["event_type"]`) escapes. -/
def process_market_event (bookV pcV tscV ltpV : Jv → Option VErr)
    (event : EventWrapper) : List POut × Option PyExc :=
  let body : List POut × Option PyExc :=
    match event.json with
    | .arr items => market_list_loop bookV items
    | msg =>
        match subscript msg "event_type" with
        | .error exc => ([], some exc)
        | .ok et => market_object_dispatch bookV pcV tscV ltpV msg et
  match body with
  | (outs, some .jsonDecodeError) => (outs ++ [.printedText event.text], none)
  | (outs, some (.validationError e)) =>
      (outs ++ [.printedErrors e, .printedRaw event.json], none)
  | r => r

/-- `_process_user_event` (lines 74–86): dispatch on `message["event_type"]`
with arms for `"order"` and `"trade"` only — the `match` statement has no
`case _`, so any other discriminant falls through without executing
anything. The outer clauses catch `JSONDecodeError` and `ValidationError`. -/
def process_user_event (orderV tradeV : Jv → Option VErr)
    (event : EventWrapper) : List POut × Option PyExc :=
  let body : List POut × Option PyExc :=
    match subscript event.json "event_type" with
    | .error exc => ([], some exc)
    | .ok et =>
        match et with
        | .str "order" =>
            match orderV event.json with
            | none => ([.printedEvent "order" event.json], none)
            | some e => ([], some (.validationError e))
        | .str "trade" =>
            match tradeV event.json with
            | none => ([.printedEvent "trade" event.json], none)
            | some e => ([], some (.validationError e))
        | _ => ([], none)
  match body with
  | (outs, some .jsonDecodeError) => (outs ++ [.printedText event.text], none)
  | (outs, some (.validationError e)) =>
      (outs ++ [.printedText event.text, .printedErrors e], none)
  | r => r

/-! The receive loop (`market_socket`, lines 156–164).

`json.loads` is a parameter (`loads : String → Except PyExc Jv`); the
user-supplied handler is a parameter returning the prints it performs and
the exception it raises, if any. -/

/-- Body of one iteration of the `async for message in websocket` loop,
including its `except JSONDecodeError` and `except Exception` clauses
(lines 157–164). The second component is an exception escaping the
iteration (which would abort the `async for`); the two clauses catch every
`PyExc`, so the claims show it is always `none`. -/
def listen_step (loads : String → Except PyExc Jv)
    (dumps : Jv → String)
    (process : EventWrapper → List POut × Option PyExc)
    (message : String) : List POut × Option PyExc :=
  let body : List POut × Option PyExc :=
    match loads message with
    | .error exc => ([], some exc)
    | .ok data =>
        process { json := data, text := dumps data }
  match body with
  | (outs, none) => (outs, none)
  | (outs, some .jsonDecodeError) =>
      (outs ++ [.printedDecodeFail message], none)
  | (outs, some e) =>
      (outs ++ [.printedProcessError e], none)

/-- The receive loop over a finite prefix of the incoming frame stream: each
frame is handled by `listen_step`; an exception escaping a step would end
the `async for` (second component `some exc`), dropping the remaining
frames. -/
def listen_loop (loads : String → Except PyExc Jv)
    (dumps : Jv → String)
    (process : EventWrapper → List POut × Option PyExc) :
    List String → List (List POut) × Option PyExc
  | [] => ([], none)
  | message :: rest =>
      match listen_step loads dumps process message with
      | (outs, some exc) => ([outs], some exc)
      | (outs, none) =>
          let (tails, exc) := listen_loop loads dumps process rest
          (outs :: tails, exc)

/-! The `live_data_socket` function (lines 196–245).

Python dicts are mutable objects; the subscription entries live in a heap of
dicts addressed by index, so that `sub.copy()` (a fresh allocation) and in
place assignment `sub_copy["clob_auth"] = ...` are distinguishable from
mutation of the caller's entries. `ApiCreds` (from the missing
`clob_types.py`) is opaque key material; it enters this function only
through `creds.model_dump()`, so a credentials value is modelled by its
serialized form (a `Jv`). -/

/-- A Python dict, as an association list (keys unique). -/
abbrev Dict := List (String × Jv)

/-- Read the dict at address `a` (callers only use valid addresses). -/
def heapRead (h : List Dict) (a : ℕ) : Dict :=
  h.getD a []

/-- Python `d[k] = v`: overwrite the value when `k` is present, else append
the new binding (insertion order). -/
def dictSet (d : Dict) (k : String) (v : Jv) : Dict :=
  if (d.find? (fun p => p.1 == k)).isSome then
    d.map (fun p => if p.1 == k then (p.1, v) else p)
  else
    d ++ [(k, v)]

/-- The test `sub.get("topic") == "clob_user"` from lines 206 and 216. -/
def isClobUser (d : Dict) : Bool :=
  match dictGet d "topic" with
  | some (.str s) => s == "clob_user"
  | _ => false

/-- The credential-injection loop (lines 214–222): for each subscription
entry, when its topic is `clob_user`, allocate `sub_copy = sub.copy()`
(appended at the end of the heap) and set `sub_copy["clob_auth"]` to the
serialized credentials, collecting the copy's address; otherwise collect the
original address. Returns the final heap and the address list
`subscriptions_with_creds`. -/
def build_subs_with_creds (cdump : Jv) :
    List Dict → List ℕ → List Dict × List ℕ
  | h, [] => (h, [])
  | h, a :: rest =>
      if isClobUser (heapRead h a) then
        let copyAddr := h.length
        let h1 := h ++ [heapRead h a]
        let h2 := h1.set copyAddr (dictSet (heapRead h1 copyAddr) "clob_auth" cdump)
        let (h3, rest') := build_subs_with_creds cdump h2 rest
        (h3, copyAddr :: rest')
      else
        let (h1, rest') := build_subs_with_creds cdump h rest
        (h1, a :: rest')

/-- The handshake payload of line 224: `{"action": "subscribe",
"subscriptions": ...}` with the subscription entries as heap addresses. -/
structure LiveDataPayload where
  action : String
  subscriptions : List ℕ

/-- Outcome of the setup phase of `live_data_socket` (lines 206–227):
either `AuthenticationRequiredError` is raised before the connect loop, or
control proceeds to the `while True` connect loop (lines 229–245) holding
the handshake payload and the heap after any copies. -/
inductive LiveDataSetup where
  | raised (message : String)
  | proceedToConnect (payload : LiveDataPayload) (heap : List Dict)

/-- The setup phase of `live_data_socket` (lines 206–227): compute
`needs_auth` over the subscription list; raise
`AuthenticationRequiredError` when authentication is needed and no
credentials were supplied; otherwise inject credentials into copies of the
`clob_user` entries and build the subscribe payload. `websockets.connect`
(line 231) is executed only in the `proceedToConnect` outcome. -/
def live_data_socket_setup (h : List Dict) (subscriptions : List ℕ)
    (creds : Option Jv) : LiveDataSetup :=
  let needs_auth := subscriptions.any (fun a => isClobUser (heapRead h a))
  if needs_auth then
    match creds with
    | none =>
        .raised "ApiCreds credentials are required for the clob_user topic subscriptions"
    | some cdump =>
        let (h2, subs2) := build_subs_with_creds cdump h subscriptions
        .proceedToConnect { action := "subscribe", subscriptions := subs2 } h2
  else
    .proceedToConnect { action := "subscribe", subscriptions := subscriptions } h

/-- Whether the setup outcome reaches `websockets.connect` (line 231): a
raise at line 211 happens before any connection attempt, so the attempt
count in the `raised` outcome is zero. -/
def attemptsConnection : LiveDataSetup → Bool
  | .raised _ => false
  | .proceedToConnect _ _ => true

/-- The heap as it stands when `live_data_socket`'s setup phase is over
(unchanged when the setup raised). -/
def setupFinalHeap (h : List Dict) (subscriptions : List ℕ)
    (creds : Option Jv) : List Dict :=
  match live_data_socket_setup h subscriptions creds with
  | .raised _ => h
  | .proceedToConnect _ h2 => h2

/-! Theorems for the claims. -/

/-- C5: `generate_orderbook_summary_hash` returns the SHA-1 digest of the
canonical serialization of the snapshot with its hash field set to `""` (so
the result is identical for any two snapshots differing only in their stored
hash field), the snapshot's state after the call equals its pre-call value,
and calling the function twice on the unmodified snapshot yields identical
results. -/
theorem C5_orderbook_hash_spec :
    ∀ (sha1 : String → String) (dump : OrderBookSummary → String)
      (ob : OrderBookSummary),
      (generate_orderbook_summary_hash sha1 dump ob).1
          = sha1 (dump { ob with hash := "" })
      ∧ (generate_orderbook_summary_hash sha1 dump ob).2 = ob
      ∧ (∀ h' : String,
          (generate_orderbook_summary_hash sha1 dump { ob with hash := h' }).1
            = (generate_orderbook_summary_hash sha1 dump ob).1)
      ∧ (generate_orderbook_summary_hash sha1 dump
            (generate_orderbook_summary_hash sha1 dump ob).2).1
          = (generate_orderbook_summary_hash sha1 dump ob).1 := by
  intro sha1 dump ob
  refine ⟨rfl, ?_, fun h' => rfl, rfl⟩
  cases ob
  rfl

/-- C6: `price_valid price tick_size` is true iff
`tickSize ≤ price ≤ 1 − tickSize`, both endpoints inclusive; in particular
`price_valid 0.01 "0.01"` and `price_valid 0.99 "0.01"` hold while
`price_valid 0.009 "0.01"` and `price_valid 0.991 "0.01"` do not. -/
theorem C6_price_valid_spec :
    (∀ (price : ℚ) (t : TickSize),
        price_valid price t = true ↔
          (t.toRat ≤ price ∧ price ≤ 1 - t.toRat))
    ∧ price_valid (1/100) TickSize.hundredth = true
    ∧ price_valid (99/100) TickSize.hundredth = true
    ∧ price_valid (9/1000) TickSize.hundredth = false
    ∧ price_valid (991/1000) TickSize.hundredth = false := by
  refine ⟨fun price t => by simp [price_valid], ?_, ?_, ?_, ?_⟩ <;>
    · simp only [price_valid, TickSize.toRat, decide_eq_true_eq,
        decide_eq_false_iff_not, not_and_or]
      norm_num

section RoundingLemmas

lemma pow10_pos (d : ℕ) : (0 : ℚ) < 10 ^ d := by positivity

/-- The integer numerator produced by half-up quantization. -/
def half_up_int (x : ℚ) (d : ℕ) : ℤ :=
  if 0 ≤ x then ⌊x * 10 ^ d + 1/2⌋ else ⌈x * 10 ^ d - 1/2⌉

lemma round_normal_eq_half_up (x : ℚ) (d : ℕ) :
    round_normal x d = (half_up_int x d : ℚ) / 10 ^ d := by
  unfold round_normal half_up_int
  split <;> rfl

lemma half_up_int_dist (x : ℚ) (d : ℕ) :
    |x * 10 ^ d - half_up_int x d| ≤ 1/2 := by
  unfold half_up_int
  split
  · rw [abs_le]
    constructor
    · have h := Int.floor_le (x * 10 ^ d + 1/2)
      linarith
    · have h := Int.lt_floor_add_one (x * 10 ^ d + 1/2)
      linarith
  · rw [abs_le]
    constructor
    · have h := Int.ceil_lt_add_one (x * 10 ^ d - 1/2)
      linarith
    · have h := Int.le_ceil (x * 10 ^ d - 1/2)
      linarith

lemma floor_le_half_up (x : ℚ) (d : ℕ) :
    ⌊x * 10 ^ d⌋ ≤ half_up_int x d := by
  unfold half_up_int
  split
  · exact Int.floor_mono (by linarith)
  · have h : (⌊x * 10 ^ d⌋ - 1 : ℤ) < ⌈x * 10 ^ d - 1/2⌉ := by
      rw [Int.lt_ceil]
      push_cast
      have := Int.floor_le (x * 10 ^ d)
      linarith
    omega

lemma half_up_le_ceil (x : ℚ) (d : ℕ) :
    half_up_int x d ≤ ⌈x * 10 ^ d⌉ := by
  unfold half_up_int
  split
  · have h : ⌊x * 10 ^ d + 1/2⌋ < (⌈x * 10 ^ d⌉ + 1 : ℤ) := by
      rw [Int.floor_lt]
      push_cast
      have := Int.le_ceil (x * 10 ^ d)
      linarith
    omega
  · exact Int.ceil_mono (by linarith)

lemma x_eq_scaled_div (x : ℚ) (d : ℕ) : x = x * 10 ^ d / 10 ^ d :=
  (mul_div_cancel_right₀ x (pow10_pos d).ne').symm

end RoundingLemmas

/-- C7: the three rounding utilities quantize to exactly `d` fractional
digits (each result is an integer multiple of `10^(−d)`), `round_down` is
the floor quantization (`round_down x d ≤ x < round_down x d + 10^(−d)`),
`round_up` the ceiling quantization, `round_normal` the half-up (nearest,
ties away from zero) quantization (within `10^(−d)/2` of `x`), in exact
rational arithmetic; and the five concrete evaluations from the spec hold
exactly. -/
theorem C7_rounding_quantize_spec :
    (∀ (x : ℚ) (d : ℕ),
        (∃ n : ℤ, round_down x d = (n : ℚ) / 10 ^ d)
        ∧ round_down x d ≤ x ∧ x < round_down x d + 1 / 10 ^ d
        ∧ (∃ n : ℤ, round_up x d = (n : ℚ) / 10 ^ d)
        ∧ x ≤ round_up x d ∧ round_up x d < x + 1 / 10 ^ d
        ∧ (∃ n : ℤ, round_normal x d = (n : ℚ) / 10 ^ d)
        ∧ |x - round_normal x d| ≤ 1 / (2 * 10 ^ d))
    ∧ round_down (125/1000) 2 = 12/100
    ∧ round_up (125/1000) 2 = 13/100
    ∧ round_down (129/1000) 2 = 12/100
    ∧ round_up (121/1000) 2 = 13/100
    ∧ round_normal (125/1000) 2 = 13/100 := by
  refine ⟨fun x d => ?_, ?_, ?_, ?_, ?_, ?_⟩
  · have hp := pow10_pos d
    refine ⟨⟨⌊x * 10 ^ d⌋, rfl⟩, ?_, ?_, ⟨⌈x * 10 ^ d⌉, rfl⟩, ?_, ?_,
      ⟨half_up_int x d, round_normal_eq_half_up x d⟩, ?_⟩
    · rw [round_down, div_le_iff₀ hp]
      exact Int.floor_le _
    · rw [round_down, div_add_div_same, lt_div_iff₀ hp]
      have h := Int.lt_floor_add_one (x * 10 ^ d)
      linarith
    · rw [round_up, le_div_iff₀ hp]
      exact Int.le_ceil _
    · rw [round_up, div_lt_iff₀ hp]
      have h := Int.ceil_lt_add_one (x * 10 ^ d)
      have h2 : (x + 1 / 10 ^ d) * 10 ^ d = x * 10 ^ d + 1 := by
        field_simp
      rw [h2]
      exact h
    · rw [round_normal_eq_half_up]
      have hd := half_up_int_dist x d
      calc |x - (half_up_int x d : ℚ) / 10 ^ d|
          = |(x * 10 ^ d - half_up_int x d) / 10 ^ d| := by
            congr 1
            field_simp
        _ = |x * 10 ^ d - half_up_int x d| / 10 ^ d := by
            rw [abs_div, abs_of_pos hp]
        _ ≤ (1/2) / 10 ^ d := (div_le_div_iff_of_pos_right hp).mpr hd
        _ = 1 / (2 * 10 ^ d) := by ring
  · show ((⌊(125/1000 : ℚ) * 10 ^ 2⌋ : ℚ) / 10 ^ 2) = 12/100
    have h : ⌊(125/1000 : ℚ) * 10 ^ 2⌋ = 12 := by
      rw [Int.floor_eq_iff]
      norm_num
    rw [h]
    norm_num
  · show ((⌈(125/1000 : ℚ) * 10 ^ 2⌉ : ℚ) / 10 ^ 2) = 13/100
    have h : ⌈(125/1000 : ℚ) * 10 ^ 2⌉ = 13 := by
      rw [Int.ceil_eq_iff]
      norm_num
    rw [h]
    norm_num
  · show ((⌊(129/1000 : ℚ) * 10 ^ 2⌋ : ℚ) / 10 ^ 2) = 12/100
    have h : ⌊(129/1000 : ℚ) * 10 ^ 2⌋ = 12 := by
      rw [Int.floor_eq_iff]
      norm_num
    rw [h]
    norm_num
  · show ((⌈(121/1000 : ℚ) * 10 ^ 2⌉ : ℚ) / 10 ^ 2) = 13/100
    have h : ⌈(121/1000 : ℚ) * 10 ^ 2⌉ = 13 := by
      rw [Int.ceil_eq_iff]
      norm_num
    rw [h]
    norm_num
  · rw [round_normal_eq_half_up]
    have h : half_up_int (125/1000) 2 = 13 := by
      rw [half_up_int, if_pos (by norm_num), Int.floor_eq_iff]
      norm_num
    rw [h]
    norm_num

/-- C10: the rounding utilities bound their input:
`round_down x d ≤ x ≤ round_up x d` and
`round_down x d ≤ round_normal x d ≤ round_up x d`. -/
theorem C10_rounding_bounds :
    ∀ (x : ℚ) (d : ℕ),
      round_down x d ≤ x ∧ x ≤ round_up x d
      ∧ round_down x d ≤ round_normal x d
      ∧ round_normal x d ≤ round_up x d := by
  intro x d
  have hp := pow10_pos d
  refine ⟨?_, ?_, ?_, ?_⟩
  · rw [round_down, div_le_iff₀ hp]
    exact Int.floor_le _
  · rw [round_up, le_div_iff₀ hp]
    exact Int.le_ceil _
  · rw [round_down, round_normal_eq_half_up]
    apply (div_le_div_iff_of_pos_right hp).mpr
    exact_mod_cast floor_le_half_up x d
  · rw [round_up, round_normal_eq_half_up]
    apply (div_le_div_iff_of_pos_right hp).mpr
    exact_mod_cast half_up_le_ceil x d

section ListenLemmas

lemma listen_step_no_exc (loads : String → Except PyExc Jv)
    (dumps : Jv → String)
    (process : EventWrapper → List POut × Option PyExc)
    (message : String) :
    (listen_step loads dumps process message).2 = none := by
  unfold listen_step
  cases hl : loads message with
  | error exc => cases exc <;> simp
  | ok data =>
      rcases hp : process { json := data, text := dumps data } with ⟨outs, exc⟩
      cases exc with
      | none => simp [hp]
      | some e => cases e <;> simp [hp]

lemma listen_loop_runs (loads : String → Except PyExc Jv)
    (dumps : Jv → String)
    (process : EventWrapper → List POut × Option PyExc)
    (frames : List String) :
    (listen_loop loads dumps process frames).2 = none
    ∧ (listen_loop loads dumps process frames).1.length = frames.length := by
  induction frames with
  | nil => simp [listen_loop]
  | cons m rest ih =>
      have hs := listen_step_no_exc loads dumps process m
      unfold listen_loop
      rcases h : listen_step loads dumps process m with ⟨outs, exc⟩
      rw [h] at hs
      simp only at hs
      subst hs
      simpa using ih

end ListenLemmas

/-- C8: one iteration of the receive loop never lets an exception escape —
a JSON parse failure and any handler exception are both caught, reported,
and the loop advances — so the loop over any finite frame prefix processes
every frame (one step result per frame) and never terminates the channel. -/
theorem C8_receive_loop_survives :
    ∀ (loads : String → Except PyExc Jv) (dumps : Jv → String)
      (process : EventWrapper → List POut × Option PyExc)
      (frames : List String),
      (∀ message : String,
          (listen_step loads dumps process message).2 = none)
      ∧ (listen_loop loads dumps process frames).2 = none
      ∧ (listen_loop loads dumps process frames).1.length = frames.length := by
  intro loads dumps process frames
  exact ⟨fun message => listen_step_no_exc loads dumps process message,
    (listen_loop_runs loads dumps process frames).1,
    (listen_loop_runs loads dumps process frames).2⟩

/-- C1: what `_process_market_event` actually does on a three-element array
frame whose middle element is malformed: the first well-formed element is
decoded and emitted, but the `except ValidationError` handler for the
malformed element executes `print(item.text)` on a plain dict, raising
`AttributeError`; the loop aborts, no schema-validation report is printed,
and the third (well-formed) element is never processed — contradicting the
claim that each element reports independently without blocking siblings. -/
theorem C1_array_burst_attribute_error :
    process_market_event
      (fun v => match v with
        | .obj (("malformed", _) :: _) => some "validation error: field required"
        | _ => none)
      (fun _ => none) (fun _ => none) (fun _ => none)
      { json := .arr
          [.obj [("event_type", Jv.str "book"), ("asset_id", Jv.str "A")],
           .obj [("malformed", Jv.null)],
           .obj [("event_type", Jv.str "book"), ("asset_id", Jv.str "C")]],
        text := "raw frame" }
      = ([POut.printedEvent "book"
            (.obj [("event_type", Jv.str "book"), ("asset_id", Jv.str "A")])],
         some (PyExc.attributeError "text")) := by
  rfl

/-- C2 counterexample: a User-channel object frame whose `event_type` is
neither `"order"` nor `"trade"` produces no output at all — the `match`
statement in `_process_user_event` has no `case _` arm, so the frame is
silently dropped rather than yielding a catch-all unrecognized outcome
carrying the raw payload, refuting the claim as stated. -/
theorem C2_unknown_discriminant_silent_drop :
    process_user_event (fun _ => none) (fun _ => none)
      { json := .obj [("event_type", Jv.str "some_new_kind")], text := "t" }
      = ([], none) := by
  rfl

/-- C2 (amended): `_process_user_event` dispatches on the `event_type` field
mapping `"order"` to `OrderEvent` and `"trade"` to `TradeEvent`, and for
every other `event_type` value the frame is silently ignored: no output is
produced and no exception is raised. -/
theorem C2_user_dispatch :
    ∀ (orderV tradeV : Jv → Option VErr) (txt : String)
      (fields : List (String × Jv)) (t : String),
      dictGet fields "event_type" = some (.str t) →
        ((t = "order" → orderV (.obj fields) = none →
            process_user_event orderV tradeV { json := .obj fields, text := txt }
              = ([.printedEvent "order" (.obj fields)], none))
        ∧ (t = "trade" → tradeV (.obj fields) = none →
            process_user_event orderV tradeV { json := .obj fields, text := txt }
              = ([.printedEvent "trade" (.obj fields)], none))
        ∧ (t ≠ "order" → t ≠ "trade" →
            process_user_event orderV tradeV { json := .obj fields, text := txt }
              = ([], none))) := by
  intro orderV tradeV txt fields t h
  refine ⟨?_, ?_, ?_⟩
  · rintro rfl hv
    simp [process_user_event, subscript, h, hv]
  · rintro rfl hv
    simp [process_user_event, subscript, h, hv]
  · intro h1 h2
    simp [process_user_event, subscript, h, h1, h2]

/-- C2 witness: instantiation of the amended dispatch theorem at a concrete
unknown discriminant. -/
theorem C2_user_dispatch_witness :
    process_user_event (fun _ => none) (fun _ => none)
      { json := .obj [("event_type", Jv.str "mystery_kind")], text := "w" }
      = ([], none) :=
  (C2_user_dispatch (fun _ => none) (fun _ => none) "w"
      [("event_type", Jv.str "mystery_kind")] "mystery_kind" rfl).2.2
    (by decide) (by decide)

section HeapLemmas

lemma set_append_singleton {α : Type} (l : List α) (x y : α) :
    (l ++ [x]).set l.length y = l ++ [y] := by
  induction l with
  | nil => rfl
  | cons z t ih => simp [ih]

lemma heapRead_append_left (h tail : List Dict) (i : ℕ) (hi : i < h.length) :
    heapRead (h ++ tail) i = heapRead h i := by
  unfold heapRead
  rw [List.getD_eq_getElem?_getD, List.getD_eq_getElem?_getD,
    List.getElem?_append_left hi]

lemma heapRead_append_self (h : List Dict) (d : Dict) :
    heapRead (h ++ [d]) h.length = d := by
  unfold heapRead
  simp [List.getD_eq_getElem?_getD]

/-- Unfolding of the injection loop at a `clob_user` entry: the heap gains a
mutated copy of the entry at the fresh address `h.length`. -/
lemma build_cons_clob (cdump : Jv) (h : List Dict) (a : ℕ) (rest : List ℕ)
    (hc : isClobUser (heapRead h a) = true) :
    build_subs_with_creds cdump h (a :: rest)
      = ((build_subs_with_creds cdump
            (h ++ [dictSet (heapRead h a) "clob_auth" cdump]) rest).1,
         h.length :: (build_subs_with_creds cdump
            (h ++ [dictSet (heapRead h a) "clob_auth" cdump]) rest).2) := by
  have hset : (h ++ [heapRead h a]).set h.length
      (dictSet (heapRead (h ++ [heapRead h a]) h.length) "clob_auth" cdump)
      = h ++ [dictSet (heapRead h a) "clob_auth" cdump] := by
    rw [heapRead_append_self, set_append_singleton]
  conv_lhs => unfold build_subs_with_creds
  rw [if_pos hc]
  simp only [hset]

/-- Unfolding of the injection loop at a non-`clob_user` entry: the original
address is passed through and the heap is untouched at this step. -/
lemma build_cons_other (cdump : Jv) (h : List Dict) (a : ℕ) (rest : List ℕ)
    (hc : isClobUser (heapRead h a) = false) :
    build_subs_with_creds cdump h (a :: rest)
      = ((build_subs_with_creds cdump h rest).1,
         a :: (build_subs_with_creds cdump h rest).2) := by
  conv_lhs => unfold build_subs_with_creds
  rw [if_neg (by simp [hc])]

/-- The credential-injection loop only appends fresh copies to the heap. -/
lemma build_heap_grows (cdump : Jv) :
    ∀ (subs : List ℕ) (h : List Dict),
      ∃ tail, (build_subs_with_creds cdump h subs).1 = h ++ tail := by
  intro subs
  induction subs with
  | nil => exact fun h => ⟨[], by simp [build_subs_with_creds]⟩
  | cons a rest ih =>
      intro h
      by_cases hc : isClobUser (heapRead h a)
      · rw [build_cons_clob cdump h a rest hc]
        obtain ⟨tail2, ht2⟩ := ih (h ++ [dictSet (heapRead h a) "clob_auth" cdump])
        exact ⟨[dictSet (heapRead h a) "clob_auth" cdump] ++ tail2, by
          simp only [ht2, List.append_assoc]⟩
      · rw [build_cons_other cdump h a rest (by simpa using hc)]
        exact ih h

/-- Element-wise description of the credential-injection loop: the address
list has one entry per subscription; a `clob_user` entry maps to a fresh
address whose final-heap content is the original dict with `clob_auth` set
to the serialized credentials; any other entry keeps its original address. -/
lemma build_subs_pointwise (cdump : Jv) :
    ∀ (subs : List ℕ) (h : List Dict),
      (∀ a ∈ subs, a < h.length) →
      (build_subs_with_creds cdump h subs).2.length = subs.length
      ∧ ∀ i, i < subs.length →
          (isClobUser (heapRead h (subs.getD i 0)) = true →
            heapRead (build_subs_with_creds cdump h subs).1
                ((build_subs_with_creds cdump h subs).2.getD i 0)
              = dictSet (heapRead h (subs.getD i 0)) "clob_auth" cdump)
          ∧ (isClobUser (heapRead h (subs.getD i 0)) = false →
            (build_subs_with_creds cdump h subs).2.getD i 0 = subs.getD i 0) := by
  intro subs
  induction subs with
  | nil =>
      refine fun h _ => ⟨by simp [build_subs_with_creds], fun i hi => ?_⟩
      simp at hi
  | cons a rest ih =>
      intro h hwf
      have ha : a < h.length := hwf a (by simp)
      have hmemD : ∀ (j : ℕ), j < rest.length → rest.getD j 0 ∈ rest := by
        intro j hj
        rw [List.getD_eq_getElem rest 0 hj]
        exact List.getElem_mem hj
      by_cases hc : isClobUser (heapRead h a)
      · -- clob_user entry: copy, inject into the copy, recurse
        set newd := dictSet (heapRead h a) "clob_auth" cdump with hnewd
        have hstep : build_subs_with_creds cdump h (a :: rest)
            = ((build_subs_with_creds cdump (h ++ [newd]) rest).1,
               h.length :: (build_subs_with_creds cdump (h ++ [newd]) rest).2) :=
          build_cons_clob cdump h a rest hc
        have hwf2 : ∀ b ∈ rest, b < (h ++ [newd]).length := by
          intro b hb
          have := hwf b (by simp [hb])
          simp only [List.length_append, List.length_singleton]
          omega
        obtain ⟨hlen, hpt⟩ := ih (h ++ [newd]) hwf2
        obtain ⟨tail2, ht2⟩ := build_heap_grows cdump rest (h ++ [newd])
        have hread_pres : ∀ b ∈ rest, heapRead (h ++ [newd]) b = heapRead h b := by
          intro b hb
          exact heapRead_append_left h [newd] b (hwf b (by simp [hb]))
        rw [hstep]
        refine ⟨by simpa using hlen, ?_⟩
        intro i hi
        match i with
        | 0 =>
            refine ⟨fun _ => ?_, fun hfalse => ?_⟩
            · simp only [List.getD_cons_zero]
              rw [ht2,
                heapRead_append_left (h ++ [newd]) tail2 h.length (by simp),
                heapRead_append_self]
            · exact absurd hfalse (by simp [hc])
        | j + 1 =>
            have hj : j < rest.length := by
              simpa using hi
            have hb : rest.getD j 0 ∈ rest := hmemD j hj
            have hcond := hpt j hj
            rw [hread_pres _ hb] at hcond
            simpa using hcond
      · -- non-clob_user entry: passed through, heap untouched
        have hstep : build_subs_with_creds cdump h (a :: rest)
            = ((build_subs_with_creds cdump h rest).1,
               a :: (build_subs_with_creds cdump h rest).2) :=
          build_cons_other cdump h a rest (by simpa using hc)
        have hwf2 : ∀ b ∈ rest, b < h.length := fun b hb => hwf b (by simp [hb])
        obtain ⟨hlen, hpt⟩ := ih h hwf2
        rw [hstep]
        refine ⟨by simpa using hlen, ?_⟩
        intro i hi
        match i with
        | 0 =>
            refine ⟨fun htrue => ?_, fun _ => ?_⟩
            · exact absurd htrue (by simpa using hc)
            · simp
        | j + 1 =>
            have hj : j < rest.length := by
              simpa using hi
            simpa using hpt j hj

lemma getD_mem (l : List ℕ) (i : ℕ) (hi : i < l.length) : l.getD i 0 ∈ l := by
  rw [List.getD_eq_getElem l 0 hi]
  exact List.getElem_mem hi

end HeapLemmas

/-- C3: when any subscription entry has topic `clob_user` and no credentials
were supplied, `live_data_socket` raises `AuthenticationRequiredError`
before the connect loop, so no connection attempt is made; and a raise in
the setup phase happens only in exactly that situation (it is the only
error that prevents the channel from starting). -/
theorem C3_auth_required_before_connect :
    ∀ (h : List Dict) (subs : List ℕ) (creds : Option Jv),
      ((∃ a ∈ subs, isClobUser (heapRead h a) = true) → creds = none →
        live_data_socket_setup h subs creds
          = .raised "ApiCreds credentials are required for the clob_user topic subscriptions"
        ∧ attemptsConnection (live_data_socket_setup h subs creds) = false)
      ∧ (∀ msg, live_data_socket_setup h subs creds = .raised msg →
          creds = none
          ∧ (∃ a ∈ subs, isClobUser (heapRead h a) = true)
          ∧ msg = "ApiCreds credentials are required for the clob_user topic subscriptions") := by
  intro h subs creds
  constructor
  · rintro ⟨a, hmem, htrue⟩ rfl
    have hany : subs.any (fun a => isClobUser (heapRead h a)) = true :=
      List.any_eq_true.mpr ⟨a, hmem, htrue⟩
    constructor
    · simp [live_data_socket_setup, hany]
    · simp [live_data_socket_setup, hany, attemptsConnection]
  · intro msg heq
    by_cases hany : subs.any (fun a => isClobUser (heapRead h a)) = true
    · cases creds with
      | none =>
          simp only [live_data_socket_setup, hany, if_true] at heq
          refine ⟨rfl, List.any_eq_true.mp hany, ?_⟩
          cases heq
          rfl
      | some c =>
          simp [live_data_socket_setup, hany] at heq
    · simp [live_data_socket_setup, hany] at heq

/-- C3 witness: a one-entry `clob_user` subscription list with no
credentials raises before any connection attempt. -/
theorem C3_auth_required_before_connect_witness :
    live_data_socket_setup [[("topic", Jv.str "clob_user")]] [0] none
      = .raised "ApiCreds credentials are required for the clob_user topic subscriptions"
    ∧ attemptsConnection
        (live_data_socket_setup [[("topic", Jv.str "clob_user")]] [0] none) = false :=
  (C3_auth_required_before_connect [[("topic", Jv.str "clob_user")]] [0] none).1
    ⟨0, by decide, rfl⟩ rfl

/-- C4: with credentials supplied, the handshake payload has action
`"subscribe"` and one subscription entry per input entry; exactly the
entries whose topic is `clob_user` carry an injected `clob_auth` field set
to the serialized credentials, and every other entry appears in the payload
unmodified (same dict, no credentials embedded). -/
theorem C4_handshake_payload_shape :
    ∀ (h : List Dict) (subs : List ℕ) (cdump : Jv),
      (∀ a ∈ subs, a < h.length) →
      ∃ (entries : List ℕ) (h2 : List Dict),
        live_data_socket_setup h subs (some cdump)
          = .proceedToConnect { action := "subscribe", subscriptions := entries } h2
        ∧ entries.length = subs.length
        ∧ ∀ i, i < subs.length →
            (isClobUser (heapRead h (subs.getD i 0)) = true →
              heapRead h2 (entries.getD i 0)
                = dictSet (heapRead h (subs.getD i 0)) "clob_auth" cdump)
            ∧ (isClobUser (heapRead h (subs.getD i 0)) = false →
              entries.getD i 0 = subs.getD i 0
              ∧ heapRead h2 (entries.getD i 0) = heapRead h (subs.getD i 0)) := by
  intro h subs cdump hwf
  by_cases hany : subs.any (fun a => isClobUser (heapRead h a)) = true
  · refine ⟨(build_subs_with_creds cdump h subs).2,
      (build_subs_with_creds cdump h subs).1, ?_, ?_, ?_⟩
    · simp [live_data_socket_setup, hany]
    · exact (build_subs_pointwise cdump subs h hwf).1
    · intro i hi
      have hcond := (build_subs_pointwise cdump subs h hwf).2 i hi
      refine ⟨hcond.1, fun hfalse => ?_⟩
      obtain ⟨tail, ht⟩ := build_heap_grows cdump subs h
      have heqaddr := hcond.2 hfalse
      refine ⟨heqaddr, ?_⟩
      rw [heqaddr, ht,
        heapRead_append_left h tail _ (hwf _ (getD_mem subs i hi))]
  · refine ⟨subs, h, ?_, rfl, ?_⟩
    · simp [live_data_socket_setup, hany]
    · intro i hi
      have hfalse : isClobUser (heapRead h (subs.getD i 0)) = false := by
        have := List.any_eq_false.mp (by simpa using hany)
        simpa using this _ (getD_mem subs i hi)
      exact ⟨fun htrue => absurd htrue (ne_true_of_eq_false hfalse),
        fun _ => ⟨rfl, rfl⟩⟩

/-- C4 witness: a two-entry subscription list (one `clob_user`, one other
topic) with concrete serialized credentials. -/
theorem C4_handshake_payload_shape_witness :
    ∃ (entries : List ℕ) (h2 : List Dict),
      live_data_socket_setup
          [[("topic", Jv.str "clob_user"), ("market", Jv.str "M")],
           [("topic", Jv.str "activity")]]
          [0, 1] (some (Jv.str "SERIALIZED_CREDS"))
        = .proceedToConnect { action := "subscribe", subscriptions := entries } h2
      ∧ entries.length = [0, 1].length
      ∧ ∀ i, i < [0, 1].length →
          (isClobUser (heapRead
              [[("topic", Jv.str "clob_user"), ("market", Jv.str "M")],
               [("topic", Jv.str "activity")]] ([0, 1].getD i 0)) = true →
            heapRead h2 (entries.getD i 0)
              = dictSet (heapRead
                  [[("topic", Jv.str "clob_user"), ("market", Jv.str "M")],
                   [("topic", Jv.str "activity")]] ([0, 1].getD i 0))
                  "clob_auth" (Jv.str "SERIALIZED_CREDS"))
          ∧ (isClobUser (heapRead
              [[("topic", Jv.str "clob_user"), ("market", Jv.str "M")],
               [("topic", Jv.str "activity")]] ([0, 1].getD i 0)) = false →
            entries.getD i 0 = [0, 1].getD i 0
            ∧ heapRead h2 (entries.getD i 0)
              = heapRead
                  [[("topic", Jv.str "clob_user"), ("market", Jv.str "M")],
                   [("topic", Jv.str "activity")]] ([0, 1].getD i 0)) :=
  C4_handshake_payload_shape
    [[("topic", Jv.str "clob_user"), ("market", Jv.str "M")],
     [("topic", Jv.str "activity")]]
    [0, 1] (Jv.str "SERIALIZED_CREDS") (by decide)

/-- C9: `live_data_socket` never mutates the caller's subscription entries —
credential injection happens on freshly allocated copies, so every dict the
caller passed in reads back unchanged from the heap after setup. -/
theorem C9_caller_entries_unmutated :
    ∀ (h : List Dict) (subs : List ℕ) (creds : Option Jv) (i : ℕ),
      i < h.length →
      heapRead (setupFinalHeap h subs creds) i = heapRead h i := by
  intro h subs creds i hi
  by_cases hany : subs.any (fun a => isClobUser (heapRead h a)) = true
  · cases creds with
    | none => simp [setupFinalHeap, live_data_socket_setup, hany]
    | some c =>
        have hstep : setupFinalHeap h subs (some c)
            = (build_subs_with_creds c h subs).1 := by
          simp [setupFinalHeap, live_data_socket_setup, hany]
        rw [hstep]
        obtain ⟨tail, ht⟩ := build_heap_grows c subs h
        rw [ht]
        exact heapRead_append_left h tail i hi
  · simp [setupFinalHeap, live_data_socket_setup, hany]

/-- C9 witness: a heap with one `clob_user` entry and one unrelated dict;
both caller dicts read back unchanged after setup with credentials. -/
theorem C9_caller_entries_unmutated_witness :
    heapRead (setupFinalHeap
        [[("topic", Jv.str "clob_user")], [("k", Jv.num 2)]] [0]
        (some (Jv.str "CRED"))) 0
      = heapRead [[("topic", Jv.str "clob_user")], [("k", Jv.num 2)]] 0 :=
  C9_caller_entries_unmutated
    [[("topic", Jv.str "clob_user")], [("k", Jv.num 2)]] [0]
    (some (Jv.str "CRED")) 0 (by decide)

end Polymarket
